import Mathlib

/-!
Verification of the MCP-Weather server (`server.py`).

The development shallowly embeds the three functions of the source,
`make_openmeteo_request`, `get_forecast` and `get_current_weather`, together
with the parts of their environment that their behaviour depends on:

* JSON documents (`Json`) as returned by `response.json()` — Python floats are
  represented by their canonical `repr` literal (a string), since `json.loads`
  and `json.dumps` round-trip that literal exactly;
* the Python `json` module: `json.dumps(-, indent=2)` with its default
  `ensure_ascii=True` escaping (`dumpVal`), and `json.loads` (`json_loads`),
  modelled as a fuelled recursive-descent parser over character lists;
* Python runtime behaviour the tools rely on: dict subscription raising
  `KeyError`, list indexing raising `IndexError`, truthiness of parsed
  values, and `str()` interpolation in f-strings;
* the HTTP layer as a nondeterministic outcome (`HttpOutcome`): connection
  error, timeout, or a response with a status code and a body.  `httpx`'s
  `raise_for_status` raises for every non-2xx status.

Fallible Python code is embedded as `Except PyErr`, so "raises" is visible as
an `.error` result.  Latitude/longitude arguments are represented by their
decimal rendering (Python interpolates them with `str()`; `str(52.52)` is
`"52.52"`).
-/

/-- A JSON value.  Numbers are kept as their literal text: the payloads this
    server handles come from `json.loads`, which maps every numeric literal to
    a float/int whose `repr` reproduces the literal parsed (canonically), and
    `json.dumps` writes that `repr` back out. -/
inductive Json where
  | null
  | bool (b : Bool)
  | num (lit : String)
  | str (s : String)
  | arr (elements : List Json)
  | obj (members : List (String × Json))
deriving Repr

/-- Python exceptions that the embedded code can raise. -/
inductive PyErr where
  | keyError (key : String)
  | indexError
  | typeError
  | httpStatusError (status : Nat)
  | jsonDecodeError
  | connectError
  | timeoutError
deriving Repr, DecidableEq

/-! ## Character-level helpers shared by the `json` module model -/

/-- The whitespace characters `json.loads` skips (`' \t\n\r'`). -/
def isJsonWs (c : Char) : Bool := c = ' ' || c = '\t' || c = '\n' || c = '\r'

/-- Drop leading JSON whitespace. -/
def skipWs : List Char → List Char
  | c :: cs => if isJsonWs c then skipWs cs else c :: cs
  | [] => []

/-- Characters that can occur in a JSON numeric literal. -/
def isNumChar (c : Char) : Bool :=
  ('0' ≤ c && c ≤ '9') || c = '-' || c = '+' || c = '.' || c = 'e' || c = 'E'

/-- Maximal run of numeric-literal characters, and the remainder. -/
def spanNum : List Char → List Char × List Char
  | [] => ([], [])
  | c :: cs =>
    if isNumChar c then
      let p := spanNum cs
      (c :: p.1, p.2)
    else ([], c :: cs)

/-- A remainder that cannot extend a numeric literal. -/
def numStop : List Char → Bool
  | [] => true
  | c :: _ => !isNumChar c

/-- Value of one hexadecimal digit (both cases accepted, as `int(-, 16)`):
    code points 48–57 are the decimal digits, 97–102 and 65–70 the lower- and
    uppercase letter digits. -/
def fromHexDigit (c : Char) : Option Nat :=
  let n := c.toNat
  if 48 ≤ n ∧ n ≤ 57 then some (n - 48)
  else if 97 ≤ n ∧ n ≤ 102 then some (n - 87)
  else if 65 ≤ n ∧ n ≤ 70 then some (n - 55)
  else none

/-- Value of a four-hex-digit escape body. -/
def hexQuad (a b c d : Char) : Option Nat := do
  let x ← fromHexDigit a
  let y ← fromHexDigit b
  let z ← fromHexDigit c
  let w ← fromHexDigit d
  pure (((x * 16 + y) * 16 + z) * 16 + w)

/-- The lowercase hex digit for `n < 16`, as `'%04x' % n` produces. -/
def hexDigit (n : Nat) : Char :=
  if n < 10 then Char.ofNat ('0'.toNat + n) else Char.ofNat ('a'.toNat + (n - 10))

/-- Four lowercase hex digits of `v < 0x10000`. -/
def hexFour (v : Nat) : List Char :=
  [hexDigit (v / 4096), hexDigit (v / 256 % 16), hexDigit (v / 16 % 16), hexDigit (v % 16)]

/-- The single-character escapes of `json`'s `BACKSLASH` table. -/
def decodeEscape (c : Char) : Option Char :=
  if c = '"' then some '"'
  else if c = '\\' then some '\\'
  else if c = '/' then some '/'
  else if c = 'b' then some '\x08'
  else if c = 'f' then some '\x0c'
  else if c = 'n' then some '\n'
  else if c = 'r' then some '\r'
  else if c = 't' then some '\t'
  else none

/-- String-body scanner of `json.loads` (strict mode): reads characters up to
    the closing quote, decoding backslash escapes; a `\uXXXX` escape in the
    high-surrogate range pairs with a following low-surrogate escape.  Raw
    control characters are rejected (strict mode), and unpaired surrogates —
    which CPython would keep as lone-surrogate code units, inexpressible in a
    Lean `String` — are mapped to failure. -/
def scanString : List Char → Option (List Char × List Char)
  | '"' :: rest => some ([], rest)
  | '\\' :: 'u' :: a :: b :: c :: d :: rest =>
    match hexQuad a b c d with
    | none => none
    | some v =>
      if 0xD800 ≤ v && v < 0xDC00 then
        match rest with
        | '\\' :: 'u' :: a2 :: b2 :: c2 :: d2 :: rest2 =>
          match hexQuad a2 b2 c2 d2 with
          | none => none
          | some w =>
            if 0xDC00 ≤ w && w < 0xE000 then
              match scanString rest2 with
              | some p => some (Char.ofNat (0x10000 + (v - 0xD800) * 0x400 + (w - 0xDC00)) :: p.1, p.2)
              | none => none
            else none
        | _ => none
      else if 0xDC00 ≤ v && v < 0xE000 then none
      else
        match scanString rest with
        | some p => some (Char.ofNat v :: p.1, p.2)
        | none => none
  | '\\' :: e :: rest =>
    match decodeEscape e with
    | none => none
    | some c =>
      match scanString rest with
      | some p => some (c :: p.1, p.2)
      | none => none
  | c :: rest =>
    if c.toNat < 32 then none
    else
      match scanString rest with
      | some p => some (c :: p.1, p.2)
      | none => none
  | [] => none

/-! ## `json.loads`

A fuelled recursive-descent parser mirroring CPython's pure-Python scanner
(`json/scanner.py` + `json/decoder.py`): dispatch on the first character,
whitespace skipped where the scanner skips it.  The fuel only bounds nesting
work; `json_loads` supplies more fuel than any input can consume. -/

mutual

def parseVal : Nat → List Char → Option (Json × List Char)
  | 0, _ => none
  | fuel + 1, cs =>
    match cs with
    | '\x7b' :: rest =>
      (match skipWs rest with
       | '\x7d' :: r => some (Json.obj [], r)
       | cs1 =>
         match parseObjLoop fuel cs1 with
         | some p => some (Json.obj p.1, p.2)
         | none => none)
    | '[' :: rest =>
      (match skipWs rest with
       | ']' :: r => some (Json.arr [], r)
       | cs1 =>
         match parseArrLoop fuel cs1 with
         | some p => some (Json.arr p.1, p.2)
         | none => none)
    | '"' :: rest =>
      (match scanString rest with
       | some p => some (Json.str ⟨p.1⟩, p.2)
       | none => none)
    | 't' :: 'r' :: 'u' :: 'e' :: rest => some (Json.bool true, rest)
    | 'f' :: 'a' :: 'l' :: 's' :: 'e' :: rest => some (Json.bool false, rest)
    | 'n' :: 'u' :: 'l' :: 'l' :: rest => some (Json.null, rest)
    | c :: rest =>
      if c = '-' || ('0' ≤ c && c ≤ '9') then
        let p := spanNum (c :: rest)
        some (Json.num ⟨p.1⟩, p.2)
      else none
    | [] => none

def parseArrLoop : Nat → List Char → Option (List Json × List Char)
  | 0, _ => none
  | fuel + 1, cs =>
    match parseVal fuel cs with
    | none => none
    | some (v, r) =>
      match skipWs r with
      | ']' :: r1 => some ([v], r1)
      | ',' :: r1 =>
        (match parseArrLoop fuel (skipWs r1) with
         | some p => some (v :: p.1, p.2)
         | none => none)
      | _ => none

def parseObjLoop : Nat → List Char → Option (List (String × Json) × List Char)
  | 0, _ => none
  | fuel + 1, cs =>
    match cs with
    | '"' :: r0 =>
      (match scanString r0 with
       | none => none
       | some (k, r1) =>
         match skipWs r1 with
         | ':' :: r2 =>
           (match parseVal fuel (skipWs r2) with
            | none => none
            | some (v, r3) =>
              match skipWs r3 with
              | '\x7d' :: r4 => some ([(⟨k⟩, v)], r4)
              | ',' :: r4 =>
                (match parseObjLoop fuel (skipWs r4) with
                 | some p => some ((⟨k⟩, v) :: p.1, p.2)
                 | none => none)
              | _ => none)
         | _ => none)
    | _ => none

end

/-- `json.loads`: skip leading whitespace, parse one document, require only
    whitespace afterwards.  The fuel `length + 1` dominates every recursion. -/
def json_loads (s : String) : Option Json :=
  match parseVal (s.data.length + 1) (skipWs s.data) with
  | some (j, r) => if skipWs r = [] then some j else none
  | none => none

/-! ## `json.dumps(-, indent=2)`

With `indent=2`, CPython emits `'{'`/`'['`, a newline, members/elements at the
deeper indentation separated by `',\n' + indent`, then a newline, the closing
bracket at the shallower indentation; keys are followed by `': '`; empty
containers collapse to `{}`/`[]`; `ensure_ascii=True` escapes every
non-printable or non-ASCII character. -/

/-- Indentation prefix at nesting level `l` (`indent=2`). -/
def indentChars (l : Nat) : List Char := List.replicate (2 * l) ' '

/-- One character, escaped as `ensure_ascii=True` does: printable ASCII other
    than `"` and `\` verbatim; the five short escapes; everything else as
    `\uXXXX`, astral code points as a surrogate pair. -/
def encodeChar (c : Char) : List Char :=
  if c = '"' then ['\\', '"']
  else if c = '\\' then ['\\', '\\']
  else if c = '\n' then ['\\', 'n']
  else if c = '\r' then ['\\', 'r']
  else if c = '\t' then ['\\', 't']
  else if c = '\x08' then ['\\', 'b']
  else if c = '\x0c' then ['\\', 'f']
  else if 32 ≤ c.toNat && c.toNat ≤ 126 then [c]
  else if c.toNat ≤ 0xFFFF then '\\' :: 'u' :: hexFour c.toNat
  else
    ('\\' :: 'u' :: hexFour (0xD800 + (c.toNat - 0x10000) / 0x400)) ++
    ('\\' :: 'u' :: hexFour (0xDC00 + (c.toNat - 0x10000) % 0x400))

/-- Escape a whole character list. -/
def encodeChars : List Char → List Char
  | [] => []
  | c :: cs => encodeChar c ++ encodeChars cs

/-- A quoted, escaped JSON string literal. -/
def encodeStringLit (cs : List Char) : List Char := '"' :: (encodeChars cs ++ ['"'])

mutual

def dumpVal : Json → Nat → List Char
  | .null, _ => ['n', 'u', 'l', 'l']
  | .bool true, _ => ['t', 'r', 'u', 'e']
  | .bool false, _ => ['f', 'a', 'l', 's', 'e']
  | .num lit, _ => lit.data
  | .str s, _ => encodeStringLit s.data
  | .arr [], _ => ['[', ']']
  | .arr (x :: xs), l =>
    '[' :: '\n' :: (indentChars (l + 1) ++ (dumpVal x (l + 1) ++ dumpArrTail xs l))
  | .obj [], _ => ['\x7b', '\x7d']
  | .obj (m :: ms), l =>
    '\x7b' :: '\n' :: (indentChars (l + 1) ++ (dumpMember m (l + 1) ++ dumpObjTail ms l))

def dumpMember : String × Json → Nat → List Char
  | (k, v), l => encodeStringLit k.data ++ (':' :: ' ' :: dumpVal v l)

def dumpArrTail : List Json → Nat → List Char
  | [], l => '\n' :: (indentChars l ++ [']'])
  | x :: xs, l =>
    ',' :: '\n' :: (indentChars (l + 1) ++ (dumpVal x (l + 1) ++ dumpArrTail xs l))

def dumpObjTail : List (String × Json) → Nat → List Char
  | [], l => '\n' :: (indentChars l ++ ['\x7d'])
  | m :: ms, l =>
    ',' :: '\n' :: (indentChars (l + 1) ++ (dumpMember m (l + 1) ++ dumpObjTail ms l))

end

/-- `json.dumps(j, indent=2)`. -/
def json_dumps_indent2 (j : Json) : String := ⟨dumpVal j 0⟩

/-! ## Well-formed payloads

The only representation constraint is on numeric literals: a `Json.num` must
hold a genuine numeral (nonempty, starting with a digit or `-`, built from
numeral characters) — exactly what `repr` of a Python int/float parsed from
JSON yields (`NaN`/`Infinity`, which CPython would also accept, denote no
JSON numeral and are excluded). -/

/-- A credible numeric literal. -/
def wfNumLit (s : String) : Bool :=
  match s.data with
  | [] => false
  | c :: cs => (c = '-' || ('0' ≤ c && c ≤ '9')) && cs.all isNumChar

mutual

def wfVal : Json → Bool
  | .null => true
  | .bool _ => true
  | .num lit => wfNumLit lit
  | .str _ => true
  | .arr xs => wfArr xs
  | .obj ms => wfObj ms

def wfArr : List Json → Bool
  | [] => true
  | x :: xs => wfVal x && wfArr xs

def wfObj : List (String × Json) → Bool
  | [] => true
  | (_, v) :: ms => wfVal v && wfObj ms

end

/-! ## Python runtime behaviour used by the tools -/

/-- `repr` escaping for characters inside a quoted Python string repr
    (approximate: CPython also hex-escapes unprintables and switches quote
    style; the tools only ever interpolate scalars, where `pyStr` below is
    exact, so this branch is never load-bearing). -/
def pyReprEscChar (c : Char) : List Char :=
  if c = '\\' then ['\\', '\\']
  else if c = '\x27' then ['\\', '\x27']
  else if c = '\n' then ['\\', 'n']
  else if c = '\r' then ['\\', 'r']
  else if c = '\t' then ['\\', 't']
  else [c]

def pyReprEsc : List Char → List Char
  | [] => []
  | c :: cs => pyReprEscChar c ++ pyReprEsc cs

mutual

/-- Python `repr()` of a parsed-JSON value (used by `str()` on containers). -/
def pyRepr : Json → List Char
  | .null => ['N', 'o', 'n', 'e']
  | .bool true => ['T', 'r', 'u', 'e']
  | .bool false => ['F', 'a', 'l', 's', 'e']
  | .num lit => lit.data
  | .str s => '\x27' :: (pyReprEsc s.data ++ ['\x27'])
  | .arr xs => '[' :: (pyReprItems xs ++ [']'])
  | .obj ms => '\x7b' :: (pyReprMembers ms ++ ['\x7d'])

def pyReprItems : List Json → List Char
  | [] => []
  | [x] => pyRepr x
  | x :: xs => pyRepr x ++ (',' :: ' ' :: pyReprItems xs)

def pyReprMembers : List (String × Json) → List Char
  | [] => []
  | [(k, v)] => ('\x27' :: (pyReprEsc k.data ++ ['\x27'])) ++ (':' :: ' ' :: pyRepr v)
  | (k, v) :: ms =>
    ('\x27' :: (pyReprEsc k.data ++ ['\x27'])) ++ (':' :: ' ' :: pyRepr v)
      ++ (',' :: ' ' :: pyReprMembers ms)

end

/-- Python `str()` of a parsed-JSON value, as f-string interpolation applies:
    `None`/`True`/`False` for the constants, the numeral's `repr` for numbers,
    the text itself for strings, `repr`-style rendering for containers. -/
def pyStr : Json → String
  | .null => "None"
  | .bool true => "True"
  | .bool false => "False"
  | .num lit => lit
  | .str s => s
  | .arr xs => ⟨'[' :: (pyReprItems xs ++ [']'])⟩
  | .obj ms => ⟨'\x7b' :: (pyReprMembers ms ++ ['\x7d'])⟩

/-- Does a JSON numeral denote zero?  Exactly when every mantissa digit is 0
    (the exponent cannot make a nonzero mantissa zero). -/
def numLitIsZero (s : String) : Bool :=
  ((s.data.takeWhile fun c => !(c = 'e' || c = 'E')).filter
    fun c => !(c = '-' || c = '+' || c = '.')).all fun c => c = '0'

/-- Python falsiness of a parsed-JSON value (`if not data`): `None`, `False`,
    zero, and empty strings/lists/dicts are falsy. -/
def pyFalsy : Json → Bool
  | .null => true
  | .bool b => !b
  | .num lit => numLitIsZero lit
  | .str s => s.data.isEmpty
  | .arr xs => xs.isEmpty
  | .obj ms => ms.isEmpty

/-- First binding of `key` in a dict's association list (keys of a dict built
    by `json.loads` are unique, so first = only). -/
def lookupKey : List (String × Json) → String → Option Json
  | [], _ => none
  | (k, v) :: ms, key => if k = key then some v else lookupKey ms key

/-- Python subscription `j[key]` with a string key: dict lookup raising
    `KeyError` on a missing key, `TypeError` on every non-dict value. -/
def pySubscript (j : Json) (key : String) : Except PyErr Json :=
  match j with
  | .obj ms =>
    match lookupKey ms key with
    | some v => .ok v
    | none => .error (.keyError key)
  | _ => .error .typeError

/-- Python `len()`: defined on lists, strings and dicts; `TypeError` otherwise. -/
def pyLen : Json → Except PyErr Nat
  | .arr xs => .ok xs.length
  | .str s => .ok s.data.length
  | .obj ms => .ok ms.length
  | _ => .error .typeError

/-- Python subscription `j[i]` with a non-negative int: list indexing raising
    `IndexError` past the end; string indexing yields a one-character string;
    `TypeError` on non-sequences (a dict would raise `KeyError`, but the tools
    never index dicts by int, and modelling that needs no more precision). -/
def pyIndex (j : Json) (i : Nat) : Except PyErr Json :=
  match j with
  | .arr xs => if h : i < xs.length then .ok (xs.get ⟨i, h⟩) else .error .indexError
  | .str s =>
    if h : i < s.data.length then .ok (.str ⟨[s.data.get ⟨i, h⟩]⟩) else .error .indexError
  | _ => .error .typeError

/-! ## `make_openmeteo_request` -/

/-- What the awaited GET can come to: a raised connection error, a raised
    timeout (30 s), or a response carrying a status code and a body. -/
inductive HttpOutcome where
  | connectionError
  | timeout
  | response (status : Nat) (body : String)

/-- The `try:` block of `make_openmeteo_request`, with exceptions visible:
    `client.get` raises on connection failure or timeout;
    `response.raise_for_status()` raises `HTTPStatusError` on every non-2xx
    status (httpx raises for informational, redirect, client and server
    codes alike); `response.json()` raises on a malformed body. -/
def attemptRequest (o : HttpOutcome) : Except PyErr Json :=
  match o with
  | .connectionError => .error .connectError
  | .timeout => .error .timeoutError
  | .response status body =>
    if status < 200 || 300 ≤ status then .error (.httpStatusError status)
    else
      match json_loads body with
      | some j => .ok j
      | none => .error .jsonDecodeError

/-- `make_openmeteo_request` as callers observe it: the same computation with
    `except Exception: return None` wrapped around it. -/
def make_openmeteo_request (o : HttpOutcome) : Option Json :=
  match o with
  | .connectionError => none
  | .timeout => none
  | .response status body =>
    if status < 200 || 300 ≤ status then none
    else
      match json_loads body with
      | some j => some j
      | none => none

/-! ## The two tools -/

def OPENMETEO_API_BASE : String := "https://api.open-meteo.com/v1"

/-- The URL `get_forecast` builds (line 63), with the coordinates' `str()`
    renderings interpolated. -/
def forecastUrl (latitude longitude : String) : String :=
  OPENMETEO_API_BASE ++ "/forecast?latitude=" ++ latitude ++ "&longitude=" ++ longitude
    ++ "&hourly=temperature_2m,precipitation,weathercode"
    ++ "&daily=temperature_2m_max,temperature_2m_min,precipitation_sum,weathercode"
    ++ "&timezone=auto"

/-- The URL `get_current_weather` builds (line 104). -/
def currentWeatherUrl (latitude longitude : String) : String :=
  OPENMETEO_API_BASE ++ "/forecast?latitude=" ++ latitude ++ "&longitude=" ++ longitude
    ++ "&current=temperature_2m,is_day,showers,cloud_cover,wind_speed_10m,wind_direction_10m,pressure_msl,snowfall,precipitation,relative_humidity_2m,apparent_temperature,rain,weather_code,surface_pressure,wind_gusts_10m"

/-- Does `pat` begin `cs`? -/
def isPrefixList : List Char → List Char → Bool
  | [], _ => true
  | _ :: _, [] => false
  | p :: ps, c :: cs => p = c && isPrefixList ps cs

/-- The suffix following the first occurrence of `pat`, if any. -/
def afterSubstring (pat : List Char) : List Char → Option (List Char)
  | [] => none
  | c :: cs =>
    if isPrefixList pat (c :: cs) then some (List.drop pat.length (c :: cs))
    else afterSubstring pat cs

/-- Split at every comma (n commas give n+1 pieces). -/
def splitCommas : List Char → List (List Char)
  | [] => [[]]
  | c :: cs =>
    if c = ',' then [] :: splitCommas cs
    else
      match splitCommas cs with
      | h :: t => (c :: h) :: t
      | [] => [[c]]

/-- The comma-separated items of the `current` query parameter of a URL. -/
def currentParamItems (url : String) : List String :=
  match afterSubstring ("&current=").data url.data with
  | none => []
  | some rest => (splitCommas (rest.takeWhile fun c => !(c = '&'))).map fun l => ⟨l⟩

def forecastFallback : String := "Unable to fetch forecast data for this location."

def currentFallback : String := "Unable to fetch current weather data for this location."

/-- The rendered text of one day's block: the triple-quoted f-string of lines
    77–83 opens and closes with a newline of its own, around the five
    `Date:` … `Weather Code:` lines. -/
def dayBlock (t tmax tmin prcp code : Json) : String :=
  "\nDate: " ++ pyStr t
    ++ "\nMax Temperature: " ++ pyStr tmax ++ "°C"
    ++ "\nMin Temperature: " ++ pyStr tmin ++ "°C"
    ++ "\nPrecipitation: " ++ pyStr prcp ++ " mm"
    ++ "\nWeather Code: " ++ pyStr code ++ "\n"

def forecastBlock (daily : Json) (i : Nat) : Except PyErr String := do
  let t ← pyIndex (← pySubscript daily "time") i
  let tmax ← pyIndex (← pySubscript daily "temperature_2m_max") i
  let tmin ← pyIndex (← pySubscript daily "temperature_2m_min") i
  let prcp ← pyIndex (← pySubscript daily "precipitation_sum") i
  let code ← pyIndex (← pySubscript daily "weathercode") i
  pure (dayBlock t tmax tmin prcp code)

/-- `for i in range(n): forecasts.append(...)` — the accumulated list after
    iterations `0, …, n-1`, failing at the first iteration that raises. -/
def forecastLoop (daily : Json) : Nat → Except PyErr (List String)
  | 0 => .ok []
  | n + 1 => do
    let bs ← forecastLoop daily n
    let b ← forecastBlock daily n
    pure (bs ++ [b])

/-- `get_forecast`, parameterised by the already-awaited fetch result.  The
    body after the `if not data` guard runs unprotected, so its `KeyError` /
    `IndexError` / `TypeError` surface as `.error`. -/
def get_forecast (data : Option Json) : Except PyErr String :=
  match data with
  | none => .ok forecastFallback
  | some j =>
    if pyFalsy j then .ok forecastFallback
    else do
      let daily ← pySubscript j "daily"
      let time ← pySubscript daily "time"
      let n ← pyLen time
      let blocks ← forecastLoop daily n
      pure (String.intercalate "\n---\n" blocks)

/-- `get_current_weather`, parameterised by the already-awaited fetch result. -/
def get_current_weather (data : Option Json) : Except PyErr String :=
  match data with
  | none => .ok currentFallback
  | some j =>
    if pyFalsy j then .ok currentFallback
    else .ok (json_dumps_indent2 j)

/-! ## Specification-side views used in the theorem statements -/

/-- The per-day blocks determined by the five parallel `daily` sequences,
    first to last, zipping positionally (stopping at the shortest list; the
    claims instantiate it with equal lengths). -/
def specBlocks : List Json → List Json → List Json → List Json → List Json → List String
  | t :: ts, a :: tas, b :: tbs, p :: tps, w :: tws =>
    dayBlock t a b p w :: specBlocks ts tas tbs tps tws
  | _, _, _, _, _ => []

/-- What C1 literally predicts for one day: the five lines alone, with no
    blank line before or after. -/
def fiveLineBlock (t tmax tmin prcp code : Json) : String :=
  "Date: " ++ pyStr t
    ++ "\nMax Temperature: " ++ pyStr tmax ++ "°C"
    ++ "\nMin Temperature: " ++ pyStr tmin ++ "°C"
    ++ "\nPrecipitation: " ++ pyStr prcp ++ " mm"
    ++ "\nWeather Code: " ++ pyStr code

/-- `Except` result carries a value (the call returned rather than raised). -/
def returnsNormally : Except PyErr String → Bool
  | .ok _ => true
  | .error _ => false

/-! ## Concrete payloads for counterexamples and witnesses -/

/-- A well-shaped one-day forecast payload. -/
def oneDayPayload : Json :=
  Json.obj [("daily", Json.obj
    [("time", Json.arr [Json.str "2024-01-01"]),
     ("temperature_2m_max", Json.arr [Json.num "10.5"]),
     ("temperature_2m_min", Json.arr [Json.num "2.1"]),
     ("precipitation_sum", Json.arr [Json.num "0.5"]),
     ("weathercode", Json.arr [Json.num "3"])])]

/-- A truthy payload with no `daily` key at all. -/
def noDailyPayload : Json := Json.obj [("hourly", Json.str "x")]

/-- A payload whose `temperature_2m_max` array is shorter than `time`. -/
def shortArrayPayload : Json :=
  Json.obj [("daily", Json.obj
    [("time", Json.arr [Json.str "2024-01-01"]),
     ("temperature_2m_max", Json.arr []),
     ("temperature_2m_min", Json.arr [Json.num "2.1"]),
     ("precipitation_sum", Json.arr [Json.num "0.5"]),
     ("weathercode", Json.arr [Json.num "3"])])]

/-- A payload with an empty `daily.time` and no other daily arrays. -/
def emptyTimePayload : Json :=
  Json.obj [("daily", Json.obj [("time", Json.arr [])])]

/-- A two-day `daily` object shared by the two C10 witness payloads. -/
def sharedDaily : Json :=
  Json.obj
    [("time", Json.arr [Json.str "2024-01-01", Json.str "2024-01-02"]),
     ("temperature_2m_max", Json.arr [Json.num "10.5", Json.num "11.0"]),
     ("temperature_2m_min", Json.arr [Json.num "2.1", Json.num "3.2"]),
     ("precipitation_sum", Json.arr [Json.num "0.5", Json.num "0.0"]),
     ("weathercode", Json.arr [Json.num "3", Json.num "61"])]

/-- A small current-weather payload. -/
def currentPayloadMembers : List (String × Json) :=
  [("latitude", Json.num "52.52"),
   ("current", Json.obj [("temperature_2m", Json.num "21.5"), ("is_day", Json.num "1")])]

/-- The variables line 104 actually asks for in the `current` parameter. -/
def currentVariables : List String :=
  ["temperature_2m", "is_day", "showers", "cloud_cover", "wind_speed_10m",
   "wind_direction_10m", "pressure_msl", "snowfall", "precipitation",
   "relative_humidity_2m", "apparent_temperature", "rain", "weather_code",
   "surface_pressure", "wind_gusts_10m"]

/-!
# Theorems
-/

/-! ## C3, C6, C8: direct evaluations -/

/-- **C3.** When the fetch helper returns the absence signal (`None`), each
    tool returns exactly its fixed fallback sentence, with no partial result. -/
theorem c3_absence_fallbacks :
    get_forecast none = .ok "Unable to fetch forecast data for this location."
    ∧ get_current_weather none = .ok "Unable to fetch current weather data for this location." :=
  ⟨rfl, rfl⟩

/-- **C6.** For latitude `52.52` and longitude `13.41` (which `str()` renders
    as `"52.52"` and `"13.41"`), the forecast URL is exactly the expected
    string. -/
theorem c6_forecast_url :
    forecastUrl "52.52" "13.41" =
      "https://api.open-meteo.com/v1/forecast?latitude=52.52&longitude=13.41&hourly=temperature_2m,precipitation,weathercode&daily=temperature_2m_max,temperature_2m_min,precipitation_sum,weathercode&timezone=auto" :=
  rfl

/-- **C8.** A successfully parsed but empty JSON object `{}` is falsy, so both
    tools answer exactly as they do for a failed fetch: the same fallback
    strings, indistinguishable from `None`. -/
theorem c8_empty_object_like_fetch_failure :
    get_forecast (some (Json.obj [])) = get_forecast none
    ∧ get_current_weather (some (Json.obj [])) = get_current_weather none
    ∧ get_forecast (some (Json.obj [])) = .ok forecastFallback
    ∧ get_current_weather (some (Json.obj [])) = .ok currentFallback :=
  ⟨rfl, rfl, rfl, rfl⟩

/-! ## C2: the fetch helper normalizes every failure to `None` -/

/-- **C2.** `make_openmeteo_request` is the `try:` body with every raised
    exception collapsed to `None`: it returns exactly the option part of
    `attemptRequest` (so an error, whether connection failure, timeout,
    non-2xx status or malformed body, becomes `None`, and a success returns
    the parsed document), and an HTTP 500 response is indistinguishable from
    a network-level connection failure. -/
theorem c2_fetch_normalizes_failures (o : HttpOutcome) (body : String) :
    make_openmeteo_request o = (attemptRequest o).toOption
    ∧ make_openmeteo_request (.response 500 body) = make_openmeteo_request .connectionError := by
  refine ⟨?_, ?_⟩
  · cases o with
    | connectionError => rfl
    | timeout => rfl
    | response status b =>
      simp only [make_openmeteo_request, attemptRequest]
      split
      · rfl
      · cases h : json_loads b <;> simp [h, Except.toOption]
  · simp [make_openmeteo_request]

/-! ## C7: the current-weather URL requests fifteen variables, not fourteen -/

/-- **C7 counterexample.** At latitude `52.52`, longitude `13.41`, the
    `current` query parameter of the constructed URL carries fifteen
    comma-separated variables — not fourteen as claimed. -/
theorem c7_counterexample :
    (currentParamItems (currentWeatherUrl "52.52" "13.41")).length = 15
    ∧ (15 : Nat) ≠ 14 :=
  ⟨rfl, by decide⟩

/-- **C7 (amended).** For every latitude and longitude, the current-weather
    URL interpolates the two coordinates and requests the fixed list of
    exactly *fifteen* current-weather variables in its `current` parameter. -/
theorem c7_url_fifteen_variables (latitude longitude : String) :
    currentWeatherUrl latitude longitude =
      OPENMETEO_API_BASE ++ "/forecast?latitude=" ++ latitude ++ "&longitude=" ++ longitude
        ++ "&current=" ++ String.intercalate "," currentVariables
    ∧ currentVariables.length = 15 := by
  refine ⟨?_, rfl⟩
  rw [String.append_assoc]
  rfl

/-! ## C1: block shape -/

/-- **C1 counterexample.** On a well-shaped one-day payload, the output is the
    f-string block with a leading and a trailing newline; it is *not* the bare
    five-line block the claim describes (and with a single day there is no
    separator, so the claim pins the whole output to that five-line string). -/
theorem c1_counterexample :
    get_forecast (some oneDayPayload)
      = .ok "\nDate: 2024-01-01\nMax Temperature: 10.5°C\nMin Temperature: 2.1°C\nPrecipitation: 0.5 mm\nWeather Code: 3\n"
    ∧ ("\nDate: 2024-01-01\nMax Temperature: 10.5°C\nMin Temperature: 2.1°C\nPrecipitation: 0.5 mm\nWeather Code: 3\n" : String)
      ≠ String.intercalate "\n---\n"
          [fiveLineBlock (Json.str "2024-01-01") (Json.num "10.5") (Json.num "2.1")
            (Json.num "0.5") (Json.num "3")] :=
  ⟨rfl, by decide⟩

/-! ## C4: malformed payloads make `get_forecast` raise -/

/-- **C4 counterexample.** A truthy payload without a `daily` key makes
    `get_forecast` raise `KeyError('daily')` — the failure crosses the
    function boundary instead of being converted to the absence signal. -/
theorem c4_counterexample :
    get_forecast (some noDailyPayload) = .error (PyErr.keyError "daily") :=
  rfl

/-! ## C9, C10 and the forecast formatting helpers -/

/-- **C9.** A successfully fetched payload whose `daily.time` is empty makes
    the loop run zero times: the result is the empty join, not the fallback
    and not an error. -/
theorem c9_empty_time_empty_output (ms d : List (String × Json))
    (hd : lookupKey ms "daily" = some (Json.obj d))
    (ht : lookupKey d "time" = some (Json.arr [])) :
    get_forecast (some (Json.obj ms)) = .ok "" := by
  cases ms with
  | nil => simp [lookupKey] at hd
  | cons m t =>
    simp [get_forecast, pyFalsy, pySubscript, hd, ht, pyLen, forecastLoop,
      String.intercalate, Bind.bind, Except.bind, Pure.pure, Except.pure]

/-- Witness for C9 at a concrete payload. -/
theorem c9_witness : get_forecast (some emptyTimePayload) = .ok "" :=
  c9_empty_time_empty_output [("daily", Json.obj [("time", Json.arr [])])]
    [("time", Json.arr [])] rfl rfl

/-- **C10.** After the truthiness guard, `get_forecast` reads the payload only
    through `data["daily"]`: two truthy payloads with the same `daily` value
    produce identical results, whatever other fields they carry. -/
theorem c10_depends_only_on_daily (ms1 ms2 : List (String × Json)) (d : Json)
    (h1 : lookupKey ms1 "daily" = some d) (h2 : lookupKey ms2 "daily" = some d) :
    get_forecast (some (Json.obj ms1)) = get_forecast (some (Json.obj ms2)) := by
  cases ms1 with
  | nil => simp [lookupKey] at h1
  | cons a t1 =>
    cases ms2 with
    | nil => simp [lookupKey] at h2
    | cons b t2 => simp [get_forecast, pyFalsy, pySubscript, h1, h2]

/-- Witness for C10: an extra `hourly` field does not change the output. -/
theorem c10_witness :
    get_forecast (some (Json.obj [("daily", sharedDaily), ("hourly", Json.str "extra")]))
      = get_forecast (some (Json.obj [("daily", sharedDaily)])) :=
  c10_depends_only_on_daily _ _ sharedDaily rfl rfl

/-- Evaluating one loop body when the five arrays are present and long
    enough: each fresh subscript succeeds and the block renders the five
    indexed values. -/
theorem forecastBlock_eval (d : List (String × Json)) (t a b p w : List Json) (i : Nat)
    (ht : lookupKey d "time" = some (Json.arr t))
    (ha : lookupKey d "temperature_2m_max" = some (Json.arr a))
    (hb : lookupKey d "temperature_2m_min" = some (Json.arr b))
    (hp : lookupKey d "precipitation_sum" = some (Json.arr p))
    (hw : lookupKey d "weathercode" = some (Json.arr w))
    (hit : i < t.length) (hia : i < a.length) (hib : i < b.length)
    (hip : i < p.length) (hiw : i < w.length) :
    forecastBlock (Json.obj d) i
      = .ok (dayBlock (t.getD i .null) (a.getD i .null) (b.getD i .null)
          (p.getD i .null) (w.getD i .null)) := by
  simp [forecastBlock, pySubscript, ht, ha, hb, hp, hw, pyIndex, hit, hia, hib, hip, hiw,
    Bind.bind, Except.bind, Pure.pure, Except.pure, List.getD_eq_getElem?_getD,
    List.getElem?_eq_getElem]

/-- Evaluating the loop up to `n`: the blocks for `0, …, n-1` in order. -/
theorem forecastLoop_eval (d : List (String × Json)) (t a b p w : List Json)
    (ht : lookupKey d "time" = some (Json.arr t))
    (ha : lookupKey d "temperature_2m_max" = some (Json.arr a))
    (hb : lookupKey d "temperature_2m_min" = some (Json.arr b))
    (hp : lookupKey d "precipitation_sum" = some (Json.arr p))
    (hw : lookupKey d "weathercode" = some (Json.arr w))
    (n : Nat) (hnt : n ≤ t.length) (hna : n ≤ a.length) (hnb : n ≤ b.length)
    (hnp : n ≤ p.length) (hnw : n ≤ w.length) :
    forecastLoop (Json.obj d) n
      = .ok ((List.range n).map fun i =>
          dayBlock (t.getD i .null) (a.getD i .null) (b.getD i .null)
            (p.getD i .null) (w.getD i .null)) := by
  induction n with
  | zero => rfl
  | succ k ih =>
    rw [forecastLoop, ih (by omega) (by omega) (by omega) (by omega) (by omega),
      List.range_succ]
    simp [Bind.bind, Except.bind, Pure.pure, Except.pure,
      forecastBlock_eval d t a b p w k ht ha hb hp hw
        (by omega) (by omega) (by omega) (by omega) (by omega)]

/-- Positional zipping agrees with index-based iteration over `time`'s range
    when the other four lists are at least as long. -/
theorem range_map_eq_specBlocks : ∀ (t a b p w : List Json),
    t.length ≤ a.length → t.length ≤ b.length → t.length ≤ p.length → t.length ≤ w.length →
    ((List.range t.length).map fun i =>
        dayBlock (t.getD i .null) (a.getD i .null) (b.getD i .null)
          (p.getD i .null) (w.getD i .null))
      = specBlocks t a b p w := by
  intro t
  induction t with
  | nil => intro a b p w _ _ _ _; simp [specBlocks]
  | cons x ts ih =>
    intro a b p w ha hb hp hw
    match a, ha with
    | y :: tas, ha =>
    match b, hb with
    | z :: tbs, hb =>
    match p, hp with
    | q :: tps, hp =>
    match w, hw with
    | r :: tws, hw =>
    rw [List.length_cons, List.range_succ_eq_map, List.map_cons, List.map_map]
    show _ :: _ = _
    simp only [specBlocks]
    refine congrArg₂ _ rfl ?_
    have := ih tas tbs tps tws (by simpa using ha) (by simpa using hb)
      (by simpa using hp) (by simpa using hw)
    rw [← this]
    apply List.map_congr_left
    intro i _
    simp [List.getD]

/-- The general shape of a successful `get_forecast`: on a payload whose
    `daily` member carries the five arrays, with `time` no longer than the
    others, the result is the day blocks joined by `"\n---\n"`. -/
theorem forecast_format (ms d : List (String × Json)) (t a b p w : List Json)
    (hd : lookupKey ms "daily" = some (Json.obj d))
    (ht : lookupKey d "time" = some (Json.arr t))
    (ha : lookupKey d "temperature_2m_max" = some (Json.arr a))
    (hb : lookupKey d "temperature_2m_min" = some (Json.arr b))
    (hp : lookupKey d "precipitation_sum" = some (Json.arr p))
    (hw : lookupKey d "weathercode" = some (Json.arr w))
    (la : t.length ≤ a.length) (lb : t.length ≤ b.length)
    (lp : t.length ≤ p.length) (lw : t.length ≤ w.length) :
    get_forecast (some (Json.obj ms))
      = .ok (String.intercalate "\n---\n" (specBlocks t a b p w)) := by
  cases ms with
  | nil => simp [lookupKey] at hd
  | cons m tl =>
    rw [get_forecast]
    simp only [pyFalsy, List.isEmpty_cons, Bool.false_eq_true, if_false, pySubscript, hd,
      ht, pyLen, Bind.bind, Except.bind,
      forecastLoop_eval d t a b p w ht ha hb hp hw t.length (by omega) la lb lp lw,
      range_map_eq_specBlocks t a b p w la lb lp lw]
    rfl

/-- **C1 (amended).** For a payload whose `daily` object carries the five
    same-length parallel sequences, the output is the per-day blocks joined by
    `"\n---\n"`, where each block is the five indexed lines *preceded by an
    empty line and followed by a line break* (the triple-quoted f-string keeps
    its opening and closing newlines) — not the bare five-line block of the
    claim. -/
theorem c1_blocks_joined (ms d : List (String × Json)) (t a b p w : List Json)
    (hd : lookupKey ms "daily" = some (Json.obj d))
    (ht : lookupKey d "time" = some (Json.arr t))
    (ha : lookupKey d "temperature_2m_max" = some (Json.arr a))
    (hb : lookupKey d "temperature_2m_min" = some (Json.arr b))
    (hp : lookupKey d "precipitation_sum" = some (Json.arr p))
    (hw : lookupKey d "weathercode" = some (Json.arr w))
    (la : a.length = t.length) (lb : b.length = t.length)
    (lp : p.length = t.length) (lw : w.length = t.length) :
    get_forecast (some (Json.obj ms))
      = .ok (String.intercalate "\n---\n" (specBlocks t a b p w)) :=
  forecast_format ms d t a b p w hd ht ha hb hp hw
    (by omega) (by omega) (by omega) (by omega)

/-- Witness for C1 at the two-day payload. -/
theorem c1_witness :
    get_forecast (some (Json.obj [("daily", sharedDaily)]))
      = .ok (String.intercalate "\n---\n"
          (specBlocks
            [Json.str "2024-01-01", Json.str "2024-01-02"]
            [Json.num "10.5", Json.num "11.0"]
            [Json.num "2.1", Json.num "3.2"]
            [Json.num "0.5", Json.num "0.0"]
            [Json.num "3", Json.num "61"])) :=
  c1_blocks_joined _ _ _ _ _ _ _ rfl rfl rfl rfl rfl rfl rfl rfl rfl rfl

/-- **C4 (amended).** The fetch helper converts its own failures to `None` and
    `get_current_weather` never raises; but `get_forecast`'s formatting runs
    unprotected: it returns normally on payloads whose `daily` block is
    well-shaped, while a payload missing `daily` raises `KeyError` and one
    whose value array is shorter than `time` raises `IndexError` (failing
    fast, as the spec's edge-case note prescribes). -/
theorem c4_failures_fail_fast :
    (∀ data, returnsNormally (get_current_weather data) = true)
    ∧ (∀ (ms d : List (String × Json)) (t a b p w : List Json),
        lookupKey ms "daily" = some (Json.obj d) →
        lookupKey d "time" = some (Json.arr t) →
        lookupKey d "temperature_2m_max" = some (Json.arr a) →
        lookupKey d "temperature_2m_min" = some (Json.arr b) →
        lookupKey d "precipitation_sum" = some (Json.arr p) →
        lookupKey d "weathercode" = some (Json.arr w) →
        t.length ≤ a.length → t.length ≤ b.length →
        t.length ≤ p.length → t.length ≤ w.length →
        returnsNormally (get_forecast (some (Json.obj ms))) = true)
    ∧ get_forecast (some shortArrayPayload) = .error PyErr.indexError := by
  refine ⟨?_, ?_, rfl⟩
  · intro data
    match data with
    | none => rfl
    | some j =>
      rw [get_current_weather]
      split <;> rfl
  · intro ms d t a b p w hd ht ha hb hp hw la lb lp lw
    rw [forecast_format ms d t a b p w hd ht ha hb hp hw la lb lp lw]
    rfl

/-- Witness for C4's positive parts at concrete payloads. -/
theorem c4_witness :
    returnsNormally (get_current_weather (some (Json.obj currentPayloadMembers))) = true
    ∧ returnsNormally (get_forecast (some oneDayPayload)) = true :=
  ⟨c4_failures_fail_fast.1 _,
   c4_failures_fail_fast.2.1
     [("daily", Json.obj
        [("time", Json.arr [Json.str "2024-01-01"]),
         ("temperature_2m_max", Json.arr [Json.num "10.5"]),
         ("temperature_2m_min", Json.arr [Json.num "2.1"]),
         ("precipitation_sum", Json.arr [Json.num "0.5"]),
         ("weathercode", Json.arr [Json.num "3"])])]
     _ _ _ _ _ _ rfl rfl rfl rfl rfl rfl
     (by decide) (by decide) (by decide) (by decide)⟩

/-! ## C5: the serialize/parse round-trip -/

/-- Characters with equal code points are equal. -/
theorem charEq_of_toNat_eq {a b : Char} (h : a.toNat = b.toNat) : a = b := by
  cases a; cases b
  simp only [Char.toNat] at h
  congr 1
  exact UInt32.eq_of_val_eq (Fin.eq_of_val_eq (by exact h))

/-- Decoding a hex digit undoes encoding, for digit values. -/
theorem fromHexDigit_hexDigit (n : Nat) (h : n < 16) :
    fromHexDigit (hexDigit n) = some n := by
  interval_cases n <;> decide

/-- Decoding the four hex digits of `v < 0x10000` recovers `v`. -/
theorem hexQuad_hexFour (v : Nat) (h : v < 0x10000) :
    hexQuad (hexDigit (v / 4096)) (hexDigit (v / 256 % 16)) (hexDigit (v / 16 % 16))
      (hexDigit (v % 16)) = some v := by
  rw [hexQuad, fromHexDigit_hexDigit (v / 4096) (by omega),
    fromHexDigit_hexDigit (v / 256 % 16) (by omega),
    fromHexDigit_hexDigit (v / 16 % 16) (by omega),
    fromHexDigit_hexDigit (v % 16) (by omega)]
  show some ((((v / 4096) * 16 + v / 256 % 16) * 16 + v / 16 % 16) * 16 + v % 16) = some v
  rw [Option.some.injEq]
  omega

theorem scan_literal_char (c : Char) (tail : List Char)
    (h1 : c ≠ '"') (h2 : c ≠ '\\') (h3 : 32 ≤ c.toNat) :
    scanString (c :: tail)
      = match scanString tail with
        | some p => some (c :: p.1, p.2)
        | none => none := by
  rw [scanString.eq_def]
  split
  · simp_all
  · simp_all
  · simp_all
  · rename_i c' rest h
    injection h with hc ht
    subst hc; subst ht
    rw [if_neg (by omega)]
  · simp_all

theorem scan_u_escape (v : Nat) (tail : List Char) (hv : v < 0x10000)
    (hsur : ¬(0xD800 ≤ v ∧ v < 0xE000)) :
    scanString ('\\' :: 'u' :: (hexFour v ++ tail))
      = match scanString tail with
        | some p => some (Char.ofNat v :: p.1, p.2)
        | none => none := by
  have h1 : (0xD800 ≤ v && v < 0xDC00) = false := by
    simp only [Bool.and_eq_false_iff, decide_eq_false_iff_not]
    omega
  have h2 : (0xDC00 ≤ v && v < 0xE000) = false := by
    simp only [Bool.and_eq_false_iff, decide_eq_false_iff_not]
    omega
  show scanString ('\\' :: 'u' :: hexDigit (v / 4096) :: hexDigit (v / 256 % 16)
      :: hexDigit (v / 16 % 16) :: hexDigit (v % 16) :: tail) = _
  rw [scanString.eq_2]
  simp only [hexQuad_hexFour v hv, h1, h2, Bool.false_eq_true, if_false]

theorem scan_surrogate_pair (n : Nat) (tail : List Char)
    (hlo : 0x10000 ≤ n) (hhi : n < 0x110000) :
    scanString ('\\' :: 'u' :: (hexFour (0xD800 + (n - 0x10000) / 0x400)
        ++ ('\\' :: 'u' :: (hexFour (0xDC00 + (n - 0x10000) % 0x400) ++ tail))))
      = match scanString tail with
        | some p => some (Char.ofNat n :: p.1, p.2)
        | none => none := by
  have hdiv : (n - 0x10000) / 0x400 < 0x400 := by omega
  have hmod : (n - 0x10000) % 0x400 < 0x400 := by omega
  show scanString ('\\' :: 'u'
      :: hexDigit ((0xD800 + (n - 0x10000) / 0x400) / 4096)
      :: hexDigit ((0xD800 + (n - 0x10000) / 0x400) / 256 % 16)
      :: hexDigit ((0xD800 + (n - 0x10000) / 0x400) / 16 % 16)
      :: hexDigit ((0xD800 + (n - 0x10000) / 0x400) % 16)
      :: '\\' :: 'u'
      :: hexDigit ((0xDC00 + (n - 0x10000) % 0x400) / 4096)
      :: hexDigit ((0xDC00 + (n - 0x10000) % 0x400) / 256 % 16)
      :: hexDigit ((0xDC00 + (n - 0x10000) % 0x400) / 16 % 16)
      :: hexDigit ((0xDC00 + (n - 0x10000) % 0x400) % 16)
      :: tail) = _
  have hc1 : (0xD800 ≤ 0xD800 + (n - 0x10000) / 0x400
      && 0xD800 + (n - 0x10000) / 0x400 < 0xDC00) = true := by
    simp only [Bool.and_eq_true, decide_eq_true_eq]
    omega
  have hc2 : (0xDC00 ≤ 0xDC00 + (n - 0x10000) % 0x400
      && 0xDC00 + (n - 0x10000) % 0x400 < 0xE000) = true := by
    simp only [Bool.and_eq_true, decide_eq_true_eq]
    omega
  have harith : 0x10000 + (0xD800 + (n - 0x10000) / 0x400 - 0xD800) * 0x400
      + (0xDC00 + (n - 0x10000) % 0x400 - 0xDC00) = n := by omega
  rw [scanString.eq_2]
  simp only [hexQuad_hexFour (0xD800 + (n - 0x10000) / 0x400) (by omega), hc1,
    eq_self_iff_true, if_true,
    hexQuad_hexFour (0xDC00 + (n - 0x10000) % 0x400) (by omega), hc2, harith]

/-- Scanning one encoded character prepends the character and continues. -/
theorem scan_encodeChar (c : Char) (tail : List Char) :
    scanString (encodeChar c ++ tail)
      = match scanString tail with
        | some p => some (c :: p.1, p.2)
        | none => none := by
  have hv : c.toNat < 0xD800 ∨ (0xDFFF < c.toNat ∧ c.toNat < 0x110000) := by
    have := c.valid
    unfold UInt32.isValidChar at this
    unfold Nat.isValidChar at this
    exact this
  by_cases h1 : c = '"'
  · subst h1; rfl
  by_cases h2 : c = '\\'
  · subst h2; rfl
  by_cases h3 : c = '\n'
  · subst h3; rfl
  by_cases h4 : c = '\r'
  · subst h4; rfl
  by_cases h5 : c = '\t'
  · subst h5; rfl
  by_cases h6 : c = '\x08'
  · subst h6; rfl
  by_cases h7 : c = '\x0c'
  · subst h7; rfl
  rw [encodeChar, if_neg h1, if_neg h2, if_neg h3, if_neg h4, if_neg h5, if_neg h6, if_neg h7]
  by_cases hp : (32 ≤ c.toNat && c.toNat ≤ 126) = true
  · rw [if_pos hp, List.singleton_append]
    simp only [Bool.and_eq_true, decide_eq_true_eq] at hp
    exact scan_literal_char c tail h1 h2 hp.1
  · rw [if_neg hp]
    by_cases hb : c.toNat ≤ 0xFFFF
    · rw [if_pos hb]
      have hns : ¬(0xD800 ≤ c.toNat ∧ c.toNat < 0xE000) := by omega
      have := scan_u_escape c.toNat tail (by omega) hns
      rwa [Char.ofNat_toNat] at this
    · rw [if_neg hb]
      rw [Nat.not_le] at hb
      have := scan_surrogate_pair c.toNat tail (by omega) (by omega)
      rw [Char.ofNat_toNat] at this
      simpa [List.append_assoc] using this

/-- Scanning a fully encoded string body stops at the closing quote. -/
theorem scan_encodeChars (l : List Char) (rest : List Char) :
    scanString (encodeChars l ++ ('"' :: rest)) = some (l, rest) := by
  induction l with
  | nil => rfl
  | cons c t ih => rw [encodeChars, List.append_assoc, scan_encodeChar, ih]

/-- `spanNum` consumes exactly a numeral whenever the remainder cannot extend
    it. -/
theorem spanNum_exact (lit rest : List Char) (hall : lit.all isNumChar = true)
    (hstop : numStop rest = true) : spanNum (lit ++ rest) = (lit, rest) := by
  induction lit with
  | nil =>
    cases rest with
    | nil => rfl
    | cons c t =>
      simp only [numStop, Bool.not_eq_true'] at hstop
      simp [spanNum, hstop]
  | cons c t ih =>
    simp only [List.all_cons, Bool.and_eq_true] at hall
    simp [spanNum, hall.1, ih hall.2]

theorem skipWs_replicate_space (n : Nat) (cs : List Char) :
    skipWs (List.replicate n ' ' ++ cs) = skipWs cs := by
  induction n with
  | zero => rfl
  | succ k ih => simpa [List.replicate_succ, skipWs, isJsonWs] using ih

theorem skipWs_indent (l : Nat) (cs : List Char) :
    skipWs (indentChars l ++ cs) = skipWs cs :=
  skipWs_replicate_space (2 * l) cs

theorem skipWs_newline (cs : List Char) : skipWs ('\n' :: cs) = skipWs cs := by
  simp [skipWs, isJsonWs]

theorem skipWs_not_ws (c : Char) (cs : List Char) (h : isJsonWs c = false) :
    skipWs (c :: cs) = c :: cs := by
  simp [skipWs, h]

/-- A numeral head character is no whitespace, bracket, brace, comma or
    keyword/string opener, and satisfies the parser's numeral guard. -/
theorem numeral_head_facts (c : Char) (h : c = '-' ∨ ('0' ≤ c ∧ c ≤ '9')) :
    isJsonWs c = false ∧ c ≠ ']' ∧ c ≠ '\x7d' ∧ c ≠ '\x7b' ∧ c ≠ '[' ∧ c ≠ '"'
    ∧ c ≠ 't' ∧ c ≠ 'f' ∧ c ≠ 'n' ∧ isNumChar c = true
    ∧ (c = '-' || ('0' ≤ c && c ≤ '9')) = true := by
  rcases h with rfl | ⟨hl, hr⟩
  · refine ⟨?_, ?_, ?_, ?_, ?_, ?_, ?_, ?_, ?_, ?_, ?_⟩ <;> decide
  · have h48 : 48 ≤ c.toNat := hl
    have h57 : c.toNat ≤ 57 := hr
    refine ⟨?_, ?_, ?_, ?_, ?_, ?_, ?_, ?_, ?_, ?_, ?_⟩
    · simp only [isJsonWs, Bool.or_eq_false_iff, decide_eq_false_iff_not]
      refine ⟨⟨⟨?_, ?_⟩, ?_⟩, ?_⟩ <;>
        (intro e; rw [e] at h48; exact absurd h48 (by decide))
    · intro e; rw [e] at h57; exact absurd h57 (by decide)
    · intro e; rw [e] at h57; exact absurd h57 (by decide)
    · intro e; rw [e] at h57; exact absurd h57 (by decide)
    · intro e; rw [e] at h57; exact absurd h57 (by decide)
    · intro e; rw [e] at h48; exact absurd h48 (by decide)
    · intro e; rw [e] at h57; exact absurd h57 (by decide)
    · intro e; rw [e] at h57; exact absurd h57 (by decide)
    · intro e; rw [e] at h57; exact absurd h57 (by decide)
    · simp only [isNumChar, Bool.or_eq_true, Bool.and_eq_true, decide_eq_true_eq]
      tauto
    · simp only [Bool.or_eq_true, Bool.and_eq_true, decide_eq_true_eq]
      tauto

/-- Packaging of the head-character facts the parser proofs need. -/
theorem headOk (c : Char)
    (h : (isJsonWs c || (c = ']' : Bool) || (c = '\x7d' : Bool)) = false) :
    isJsonWs c = false ∧ c ≠ ']' ∧ c ≠ '\x7d' := by
  simp only [Bool.or_eq_false_iff, decide_eq_false_iff_not] at h
  exact ⟨h.1.1, h.1.2, h.2⟩

/-- Every rendered value opens with a character that is neither whitespace nor
    a closing bracket/brace. -/
theorem dumpVal_head (j : Json) (l : Nat) (hwf : wfVal j = true) :
    ∃ c t, dumpVal j l = c :: t ∧ isJsonWs c = false ∧ c ≠ ']' ∧ c ≠ '\x7d' := by
  match j with
  | .null => exact ⟨'n', _, rfl, headOk 'n' rfl⟩
  | .bool true => exact ⟨'t', _, rfl, headOk 't' rfl⟩
  | .bool false => exact ⟨'f', _, rfl, headOk 'f' rfl⟩
  | .str s => exact ⟨'"', _, rfl, headOk '"' rfl⟩
  | .arr [] => exact ⟨'[', _, rfl, headOk '[' rfl⟩
  | .arr (x :: xs) => exact ⟨'[', _, rfl, headOk '[' rfl⟩
  | .obj [] => exact ⟨'\x7b', _, rfl, headOk '\x7b' rfl⟩
  | .obj (m :: mr) => exact ⟨'\x7b', _, rfl, headOk '\x7b' rfl⟩
  | .num lit =>
    rw [wfVal, wfNumLit] at hwf
    cases hdata : lit.data with
    | nil => rw [hdata] at hwf; simp at hwf
    | cons c cs =>
      rw [hdata] at hwf
      simp only [Bool.and_eq_true, Bool.or_eq_true, decide_eq_true_eq] at hwf
      obtain ⟨hws, hrb, hcb, _⟩ := numeral_head_facts c hwf.1
      exact ⟨c, cs, by rw [dumpVal, hdata], hws, hrb, hcb⟩

theorem dumpArrTail_length_pos (xs : List Json) (l : Nat) :
    1 ≤ (dumpArrTail xs l).length := by
  cases xs <;> simp [dumpArrTail]

theorem dumpObjTail_length_pos (ms : List (String × Json)) (l : Nat) :
    1 ≤ (dumpObjTail ms l).length := by
  cases ms <;> simp [dumpObjTail]

theorem encodeStringLit_length (cs : List Char) :
    (encodeStringLit cs).length = (encodeChars cs).length + 2 := by
  simp [encodeStringLit]

theorem dumpVal_length_pos (j : Json) (l : Nat) (hwf : wfVal j = true) :
    1 ≤ (dumpVal j l).length := by
  obtain ⟨c0, t0, hcons, -, -, -⟩ := dumpVal_head j l hwf
  simp [hcons]

theorem skipWs_space (cs : List Char) : skipWs (' ' :: cs) = skipWs cs := by
  simp [skipWs, isJsonWs]

theorem numStop_dumpArrTail (xs : List Json) (l : Nat) (rest : List Char) :
    numStop (dumpArrTail xs l ++ rest) = true := by
  cases xs <;> simp [dumpArrTail, numStop, isNumChar]

theorem numStop_dumpObjTail (ms : List (String × Json)) (l : Nat) (rest : List Char) :
    numStop (dumpObjTail ms l ++ rest) = true := by
  cases ms <;> simp [dumpObjTail, numStop, isNumChar]

theorem skipWs_dumpVal (j : Json) (l : Nat) (x : List Char) (hwf : wfVal j = true) :
    skipWs (dumpVal j l ++ x) = dumpVal j l ++ x := by
  obtain ⟨c0, t0, hcons, hws, -, -⟩ := dumpVal_head j l hwf
  rw [hcons, List.cons_append, skipWs_not_ws c0 _ hws, ← List.cons_append, ← hcons]

theorem dumpMember_length (m : String × Json) (l : Nat) :
    (dumpMember m l).length = (encodeChars m.1.data).length + 4 + (dumpVal m.2 l).length := by
  obtain ⟨k, v⟩ := m
  simp [dumpMember, encodeStringLit]
  omega

mutual

theorem parse_dumpVal (fuel : Nat) (j : Json) (l : Nat) (rest : List Char)
    (hwf : wfVal j = true) (hstop : numStop rest = true)
    (hfuel : (dumpVal j l).length ≤ fuel) :
    parseVal fuel (dumpVal j l ++ rest) = some (j, rest) := by
  cases fuel with
  | zero =>
    obtain ⟨c0, t0, hcons, -, -, -⟩ := dumpVal_head j l hwf
    rw [hcons] at hfuel
    simp at hfuel
  | succ f =>
    cases j with
    | null => rfl
    | bool b =>
      cases b with
      | true => rfl
      | false => rfl
    | num lit =>
      rw [wfVal, wfNumLit] at hwf
      cases hdata : lit.data with
      | nil => rw [hdata] at hwf; simp at hwf
      | cons c0 cs =>
        rw [hdata] at hwf
        simp only [Bool.and_eq_true, Bool.or_eq_true, decide_eq_true_eq] at hwf
        obtain ⟨hws, hrb, hcb, hob, hsb, hqb, htb, hfb, hnb, hnum, hguard⟩ :=
          numeral_head_facts c0 hwf.1
        have hdump : dumpVal (Json.num lit) l = c0 :: cs := by rw [dumpVal, hdata]
        rw [hdump, List.cons_append,
          parseVal.eq_8 f c0 (cs ++ rest)
            (fun e => absurd e hob) (fun e => absurd e hsb) (fun e => absurd e hqb)
            (fun _ e _ => absurd e htb) (fun _ e _ => absurd e hfb)
            (fun _ e _ => absurd e hnb),
          if_pos hguard]
        have hspan : spanNum (c0 :: (cs ++ rest)) = (c0 :: cs, rest) := by
          have := spanNum_exact (c0 :: cs) rest
            (by simp only [List.all_cons, Bool.and_eq_true]; exact ⟨hnum, hwf.2⟩) hstop
          rwa [List.cons_append] at this
        simp only [hspan]
        rw [← hdata]
    | str s =>
      have hdump : dumpVal (Json.str s) l ++ rest
          = '"' :: (encodeChars s.data ++ ('"' :: rest)) := by
        simp [dumpVal, encodeStringLit]
      rw [hdump, parseVal.eq_4]
      simp only [scan_encodeChars]
    | arr es =>
      cases es with
      | nil => rfl
      | cons x xs =>
        rw [wfVal, wfArr] at hwf
        simp only [Bool.and_eq_true] at hwf
        obtain ⟨c0, t0, hcons, hws0, hrb0, hcb0⟩ := dumpVal_head x (l + 1) hwf.1
        have hshape : dumpVal (Json.arr (x :: xs)) l ++ rest
            = '[' :: ('\n' :: (indentChars (l + 1)
                ++ (dumpVal x (l + 1) ++ (dumpArrTail xs l ++ rest)))) := by
          simp [dumpVal, List.append_assoc]
        have hlen : (dumpVal x (l + 1)).length + (dumpArrTail xs l).length ≤ f := by
          have h1 : (dumpVal (Json.arr (x :: xs)) l).length
              = 2 + (indentChars (l + 1)).length + ((dumpVal x (l + 1)).length
                + (dumpArrTail xs l).length) := by
            simp [dumpVal]
            omega
          rw [h1] at hfuel
          omega
        rw [hshape, parseVal.eq_3, skipWs_newline, skipWs_indent, hcons, List.cons_append,
          skipWs_not_ws c0 _ hws0, ← List.cons_append, ← hcons]
        split
        · rename_i r heq
          rw [hcons] at heq
          injection heq with heq1 heq2
          exact absurd heq1 hrb0
        · rw [parse_dumpArr f x xs l rest hwf.1 hwf.2 hlen]
    | obj mss =>
      cases mss with
      | nil => rfl
      | cons m ms =>
        obtain ⟨k, v⟩ := m
        rw [wfVal, wfObj] at hwf
        simp only [Bool.and_eq_true] at hwf
        have hshape : dumpVal (Json.obj ((k, v) :: ms)) l ++ rest
            = '\x7b' :: ('\n' :: (indentChars (l + 1)
                ++ (dumpMember (k, v) (l + 1) ++ (dumpObjTail ms l ++ rest)))) := by
          simp [dumpVal, List.append_assoc]
        have hlen : (dumpMember (k, v) (l + 1)).length + (dumpObjTail ms l).length ≤ f := by
          have h1 : (dumpVal (Json.obj ((k, v) :: ms)) l).length
              = 2 + (indentChars (l + 1)).length + ((dumpMember (k, v) (l + 1)).length
                + (dumpObjTail ms l).length) := by
            simp [dumpVal]
            omega
          rw [h1] at hfuel
          omega
        have hmember : dumpMember (k, v) (l + 1) ++ (dumpObjTail ms l ++ rest)
            = '"' :: (encodeChars k.data
                ++ ('"' :: (':' :: (' ' :: (dumpVal v (l + 1) ++ (dumpObjTail ms l ++ rest)))))) := by
          simp [dumpMember, encodeStringLit, List.append_assoc]
        rw [hshape, parseVal.eq_2, skipWs_newline, skipWs_indent, hmember,
          skipWs_not_ws '"' _ (by decide), ← hmember]
        split
        · rename_i r heq
          rw [hmember] at heq
          injection heq with heq1 heq2
          exact absurd heq1 (by decide)
        · rw [parse_dumpObj f k v ms l rest hwf.1 hwf.2 hlen]
termination_by fuel

theorem parse_dumpArr (fuel : Nat) (x : Json) (xs : List Json) (l : Nat) (rest : List Char)
    (hwx : wfVal x = true) (hwxs : wfArr xs = true)
    (hfuel : (dumpVal x (l + 1)).length + (dumpArrTail xs l).length ≤ fuel) :
    parseArrLoop fuel (dumpVal x (l + 1) ++ (dumpArrTail xs l ++ rest))
      = some (x :: xs, rest) := by
  cases fuel with
  | zero =>
    have h1 := dumpVal_length_pos x (l + 1) hwx
    have h2 := dumpArrTail_length_pos xs l
    omega
  | succ f =>
    have htailpos := dumpArrTail_length_pos xs l
    rw [parseArrLoop.eq_2,
      parse_dumpVal f x (l + 1) (dumpArrTail xs l ++ rest) hwx
        (numStop_dumpArrTail xs l rest) (by omega)]
    cases xs with
    | nil =>
      have hskip : skipWs (dumpArrTail ([] : List Json) l ++ rest) = ']' :: rest := by
        show skipWs ('\n' :: ((indentChars l ++ [']']) ++ rest)) = ']' :: rest
        rw [skipWs_newline, List.append_assoc, List.singleton_append, skipWs_indent,
          skipWs_not_ws ']' _ (by decide)]
      simp only [hskip]
    | cons y ys =>
      rw [wfArr] at hwxs
      simp only [Bool.and_eq_true] at hwxs
      obtain ⟨c1, t1, hcons1, hws1, -, -⟩ := dumpVal_head y (l + 1) hwxs.1
      have hskip : skipWs (dumpArrTail (y :: ys) l ++ rest)
          = ',' :: ('\n' :: (indentChars (l + 1)
              ++ (dumpVal y (l + 1) ++ (dumpArrTail ys l ++ rest)))) := by
        show skipWs (',' :: ('\n' :: (indentChars (l + 1)
            ++ (dumpVal y (l + 1) ++ dumpArrTail ys l)) ++ rest)) = _
        rw [skipWs_not_ws ',' _ (by decide)]
        simp [List.append_assoc]
      have hskip2 : skipWs ('\n' :: (indentChars (l + 1)
            ++ (dumpVal y (l + 1) ++ (dumpArrTail ys l ++ rest))))
          = dumpVal y (l + 1) ++ (dumpArrTail ys l ++ rest) := by
        rw [skipWs_newline, skipWs_indent, hcons1, List.cons_append,
          skipWs_not_ws c1 _ hws1, ← List.cons_append, ← hcons1]
      have hlen2 : (dumpVal y (l + 1)).length + (dumpArrTail ys l).length ≤ f := by
        have h1 := dumpVal_length_pos x (l + 1) hwx
        have h2 : (dumpArrTail (y :: ys) l).length
            = 2 + (indentChars (l + 1)).length + ((dumpVal y (l + 1)).length
              + (dumpArrTail ys l).length) := by
          simp [dumpArrTail]
          omega
        rw [h2] at hfuel
        omega
      simp only [hskip, hskip2, parse_dumpArr f y ys l rest hwxs.1 hwxs.2 hlen2]
termination_by fuel

theorem parse_dumpObj (fuel : Nat) (k : String) (v : Json) (ms : List (String × Json))
    (l : Nat) (rest : List Char)
    (hwv : wfVal v = true) (hwms : wfObj ms = true)
    (hfuel : (dumpMember (k, v) (l + 1)).length + (dumpObjTail ms l).length ≤ fuel) :
    parseObjLoop fuel (dumpMember (k, v) (l + 1) ++ (dumpObjTail ms l ++ rest))
      = some ((k, v) :: ms, rest) := by
  cases fuel with
  | zero =>
    have h1 := dumpMember_length (k, v) (l + 1)
    have h2 := dumpObjTail_length_pos ms l
    omega
  | succ f =>
    have htailpos := dumpObjTail_length_pos ms l
    have hmemlen := dumpMember_length (k, v) (l + 1)
    have hmember : dumpMember (k, v) (l + 1) ++ (dumpObjTail ms l ++ rest)
        = '"' :: (encodeChars k.data
            ++ ('"' :: (':' :: (' ' :: (dumpVal v (l + 1) ++ (dumpObjTail ms l ++ rest)))))) := by
      simp [dumpMember, encodeStringLit, List.append_assoc]
    rw [hmember, parseObjLoop.eq_2, scan_encodeChars]
    simp only [skipWs_not_ws ':' _ (by decide), skipWs_space,
      skipWs_dumpVal v (l + 1) _ hwv,
      parse_dumpVal f v (l + 1) (dumpObjTail ms l ++ rest) hwv
        (numStop_dumpObjTail ms l rest) (by simp at hmemlen; omega)]
    cases ms with
    | nil =>
      have hskip : skipWs (dumpObjTail ([] : List (String × Json)) l ++ rest)
          = '\x7d' :: rest := by
        show skipWs ('\n' :: ((indentChars l ++ ['\x7d']) ++ rest)) = '\x7d' :: rest
        rw [skipWs_newline, List.append_assoc, List.singleton_append, skipWs_indent,
          skipWs_not_ws '\x7d' _ (by decide)]
      simp only [hskip]
    | cons m2 ms2 =>
      obtain ⟨k2, v2⟩ := m2
      rw [wfObj] at hwms
      simp only [Bool.and_eq_true] at hwms
      have hskip : skipWs (dumpObjTail ((k2, v2) :: ms2) l ++ rest)
          = ',' :: ('\n' :: (indentChars (l + 1)
              ++ (dumpMember (k2, v2) (l + 1) ++ (dumpObjTail ms2 l ++ rest)))) := by
        show skipWs (',' :: ('\n' :: (indentChars (l + 1)
            ++ (dumpMember (k2, v2) (l + 1) ++ dumpObjTail ms2 l)) ++ rest)) = _
        rw [skipWs_not_ws ',' _ (by decide)]
        simp [List.append_assoc]
      have hmember2 : dumpMember (k2, v2) (l + 1) ++ (dumpObjTail ms2 l ++ rest)
          = '"' :: (encodeChars k2.data
              ++ ('"' :: (':' :: (' ' :: (dumpVal v2 (l + 1) ++ (dumpObjTail ms2 l ++ rest)))))) := by
        simp [dumpMember, encodeStringLit, List.append_assoc]
      have hskip2 : skipWs ('\n' :: (indentChars (l + 1)
            ++ (dumpMember (k2, v2) (l + 1) ++ (dumpObjTail ms2 l ++ rest))))
          = dumpMember (k2, v2) (l + 1) ++ (dumpObjTail ms2 l ++ rest) := by
        rw [skipWs_newline, skipWs_indent, hmember2,
          skipWs_not_ws '"' _ (by decide), ← hmember2]
      have hlen2 : (dumpMember (k2, v2) (l + 1)).length + (dumpObjTail ms2 l).length ≤ f := by
        have h2 : (dumpObjTail ((k2, v2) :: ms2) l).length
            = 2 + (indentChars (l + 1)).length + ((dumpMember (k2, v2) (l + 1)).length
              + (dumpObjTail ms2 l).length) := by
          simp [dumpObjTail]
          omega
        rw [h2] at hfuel
        omega
      simp only [hskip, hskip2, parse_dumpObj f k2 v2 ms2 l rest hwms.1 hwms.2 hlen2]
termination_by fuel

end

/-- Parsing a pretty-printed document recovers exactly the document. -/
theorem json_loads_dumps (j : Json) (hwf : wfVal j = true) :
    json_loads (json_dumps_indent2 j) = some j := by
  have hskip : skipWs (dumpVal j 0) = dumpVal j 0 := by
    have h := skipWs_dumpVal j 0 [] hwf
    simpa using h
  have hparse : parseVal ((dumpVal j 0).length + 1) (dumpVal j 0) = some (j, []) := by
    have h := parse_dumpVal ((dumpVal j 0).length + 1) j 0 [] hwf rfl (by omega)
    simpa using h
  have hdata : (json_dumps_indent2 j).data = dumpVal j 0 := rfl
  simp only [json_loads, hdata, hskip, hparse]
  simp [skipWs]

/-- **C5.** On a fetched payload carrying a `current` member, the tool returns
    the whole payload serialized as 2-space-indented JSON (not only the
    `current` block), and parsing that text back yields the payload itself:
    the round-trip is lossless. -/
theorem c5_roundtrip (ms : List (String × Json)) (cur : Json)
    (hcur : lookupKey ms "current" = some cur)
    (hwf : wfVal (Json.obj ms) = true) :
    get_current_weather (some (Json.obj ms)) = .ok (json_dumps_indent2 (Json.obj ms))
    ∧ json_loads (json_dumps_indent2 (Json.obj ms)) = some (Json.obj ms) := by
  constructor
  · cases ms with
    | nil => simp [lookupKey] at hcur
    | cons m t => rfl
  · exact json_loads_dumps _ hwf

/-- Witness for C5 at a concrete payload. -/
theorem c5_witness :
    get_current_weather (some (Json.obj currentPayloadMembers))
      = .ok (json_dumps_indent2 (Json.obj currentPayloadMembers))
    ∧ json_loads (json_dumps_indent2 (Json.obj currentPayloadMembers))
      = some (Json.obj currentPayloadMembers) :=
  c5_roundtrip currentPayloadMembers
    (Json.obj [("temperature_2m", Json.num "21.5"), ("is_day", Json.num "1")]) rfl rfl
